import Mathlib

/-!
# Verification of the token-and-credential lifecycle core

Shallow embedding of the authentication core of the `ai-todo-app-backend`
repository: the JWT token codec (`src/utils/jwt.ts`), the user model and its
refresh-token methods (`src/models/User.ts`), and the `AuthService` lifecycle
operations (`src/services/authService.ts`).

Modelling conventions:
* Clocks are explicit parameters. Lifecycle operations take `nowMs : Nat`
  (milliseconds, the JS `Date.now()`); JWT-level functions take seconds,
  obtained as `nowMs / 1000` exactly where the source computes
  `Math.floor(Date.now() / 1000)` (the `jsonwebtoken` library works at
  second resolution).
* A signed JWT string is determined by its payload and signing secret
  (HS256 signing is deterministic), and distinct payload/secret pairs give
  distinct strings (no collisions). The inductive `TokenStr` captures
  exactly that: `signed payload secret`, plus `malformed s` for strings
  that are not valid JWTs at all.
* External effects are explicit parameters: the cryptographically random
  one-time tokens and fresh record ids produced by `crypto.randomBytes` are
  passed in as arguments, and the outbound email sender's success or
  failure is a `Bool` argument (the sender itself lives outside the
  modelled core; the lifecycle code only observes whether it threw).
* `bcrypt` hashing is modelled as an injective tagging function with a
  matching compare; the claims under study depend only on the
  hash/compare round-trip, never on the hash's internals.
-/

/-- JWT payload as produced by `generateAccessToken`/`generateRefreshToken`:
the `IJWTPayload` fields (`userId`, `email`, `type`) plus the `iat`/`exp`
claims (in seconds) that `jwt.sign` adds. -/
structure JwtPayload where
  userId : String
  email : String
  type : String
  iat : Nat
  exp : Nat
deriving DecidableEq, Repr

/-- A candidate JWT string. HS256 signing is deterministic and injective, so
a valid signed string is faithfully represented by its payload and secret;
`malformed` covers strings that do not decode as JWTs. -/
inductive TokenStr where
  | signed (payload : JwtPayload) (secret : String)
  | malformed (s : String)
deriving DecidableEq, Repr

/-- Application error, one constructor per error class of `src/utils/errors.ts`
that the modelled code throws, carrying the message string. `internal` stands
for a plain `new Error(...)`. In the spec's taxonomy:
`TokenExpired` = `authentication "Access/Refresh token expired"`,
`TokenMalformed` = `authentication "Invalid access/refresh token"`,
`TokenKindMismatch` = `authentication "Invalid token type"`,
`InvalidCredentials` = `authentication "Invalid email or password"`,
`InvalidRefreshToken` = `authentication "Invalid refresh token"`,
`UserNotFound` = `notFound "User not found"` (or `authentication` in Refresh),
`InvalidOrExpiredToken` = `validation "Invalid or expired ... token"`,
`DuplicateEmail` = `conflict "User with this email already exists"`,
`AlreadyVerified` = `validation "Email is already verified"`. -/
inductive AppError where
  | conflict (msg : String)
  | authentication (msg : String)
  | notFound (msg : String)
  | validation (msg : String)
  | internal (msg : String)
deriving DecidableEq, Repr

/-- The JWT-relevant slice of the configuration object (`src/config/index.ts`). -/
structure Config where
  jwtAccessSecret : String
  jwtRefreshSecret : String
  jwtAccessExpiresIn : String
  jwtRefreshExpiresIn : String
deriving DecidableEq, Repr

/-- The configuration defaults from `src/config/index.ts` (the values used
when the corresponding environment variables are unset). -/
def defaultConfig : Config :=
  { jwtAccessSecret := "default-access-secret-change-in-production"
    jwtRefreshSecret := "default-refresh-secret-change-in-production"
    jwtAccessExpiresIn := "15m"
    jwtRefreshExpiresIn := "7d" }

/-- Decimal value of a list of digit characters, or `none` when the list is
empty: the behaviour of JS `parseInt` on a digits-only string (`parseInt("")`
is `NaN`, modelled as `none`). -/
def digitsToNat (cs : List Char) : Option Nat :=
  if cs.isEmpty then none
  else some (cs.foldl (fun n c => n * 10 + (c.toNat - 48)) 0)

/-- Leading decimal digits of a string, as a `Nat`, or `none` when there are
none: the numeric head that the `ms` library reads from a lifetime string. -/
def leadingNat (s : String) : Option Nat :=
  digitsToNat (s.data.takeWhile Char.isDigit)

/-- Seconds denoted by a lifetime string such as "15m" or "7d", following the
`ms` library that `jsonwebtoken` uses to interpret the `expiresIn` option
(a bare number is milliseconds; `s`/`m`/`h`/`d` suffixes scale accordingly).
This is both how `jwt.sign` sets the token's `exp` claim and the number of
seconds the configured lifetime string denotes. -/
def lifetimeSeconds (s : String) : Option Nat :=
  match leadingNat s with
  | none => none
  | some n =>
    match String.mk (s.data.dropWhile Char.isDigit) with
    | "" => some (n / 1000)
    | "s" => some n
    | "m" => some (n * 60)
    | "h" => some (n * 3600)
    | "d" => some (n * 86400)
    | _ => none

/-- The `generateAccessToken` (`src/utils/jwt.ts:12`): signs
`{userId, email, type: "access"}` with the access secret, expiry per the
configured access lifetime. `nowSec` is the signing instant in seconds. -/
def generateAccessToken (cfg : Config) (userId email : String) (nowSec : Nat) : TokenStr :=
  .signed
    { userId := userId, email := email, type := "access"
      iat := nowSec
      exp := nowSec + (lifetimeSeconds cfg.jwtAccessExpiresIn).getD 0 }
    cfg.jwtAccessSecret

/-- The `generateRefreshToken` (`src/utils/jwt.ts:30`): signs
`{userId, email, type: "refresh"}` with the refresh secret, expiry per the
configured refresh lifetime. -/
def generateRefreshToken (cfg : Config) (userId email : String) (nowSec : Nat) : TokenStr :=
  .signed
    { userId := userId, email := email, type := "refresh"
      iat := nowSec
      exp := nowSec + (lifetimeSeconds cfg.jwtRefreshExpiresIn).getD 0 }
    cfg.jwtRefreshSecret

/-- The token-pair response `ITokenResponse`. `expiresIn` is an
`Option Nat` because the source computes it with `parseInt`, which yields
`NaN` (here `none`) when the lifetime string contains no digit. -/
structure TokenResponse where
  accessToken : TokenStr
  refreshToken : TokenStr
  expiresIn : Option Nat
deriving DecidableEq, Repr

/-- The `generateTokens` (`src/utils/jwt.ts:48`): both tokens, plus
`expiresIn = parseInt(config.jwtAccessExpiresIn.replace(/[^0-9]/g, '')) * 60`
— the digits of the configured access lifetime string times 60. -/
def generateTokens (cfg : Config) (userId email : String) (nowSec : Nat) : TokenResponse :=
  { accessToken := generateAccessToken cfg userId email nowSec
    refreshToken := generateRefreshToken cfg userId email nowSec
    expiresIn :=
      (digitsToNat (cfg.jwtAccessExpiresIn.data.filter Char.isDigit)).map (· * 60) }

/-- The `verifyAccessToken` (`src/utils/jwt.ts:68`). `jwt.verify` checks the
signature first (`JsonWebTokenError`, caught as "Invalid access token"), then
expiry (`TokenExpiredError` when `now ≥ exp`, caught as
"Access token expired"); the source then rejects payloads whose `type` is not
`"access"` with "Invalid token type". -/
def verifyAccessToken (cfg : Config) (token : TokenStr) (nowSec : Nat) :
    Except AppError JwtPayload :=
  match token with
  | .malformed _ => .error (.authentication "Invalid access token")
  | .signed p secret =>
    if secret ≠ cfg.jwtAccessSecret then .error (.authentication "Invalid access token")
    else if p.exp ≤ nowSec then .error (.authentication "Access token expired")
    else if p.type ≠ "access" then .error (.authentication "Invalid token type")
    else .ok p

/-- The `verifyRefreshToken` (`src/utils/jwt.ts:94`): as `verifyAccessToken` but
with the refresh secret, "Refresh token expired" / "Invalid refresh token"
messages, and the `type = "refresh"` check. -/
def verifyRefreshToken (cfg : Config) (token : TokenStr) (nowSec : Nat) :
    Except AppError JwtPayload :=
  match token with
  | .malformed _ => .error (.authentication "Invalid refresh token")
  | .signed p secret =>
    if secret ≠ cfg.jwtRefreshSecret then .error (.authentication "Invalid refresh token")
    else if p.exp ≤ nowSec then .error (.authentication "Refresh token expired")
    else if p.type ≠ "refresh" then .error (.authentication "Invalid token type")
    else .ok p

/-- The `decodeToken` (`src/utils/jwt.ts:119`): `jwt.decode`, which reads the
payload without checking any signature and returns `null` (here `none`) for
strings that are not JWTs. -/
def decodeToken (token : TokenStr) : Option JwtPayload :=
  match token with
  | .signed p _ => some p
  | .malformed _ => none

/-- The `isTokenExpired` (`src/utils/jwt.ts:128`): decodes without verification;
`true` when decoding fails or the payload lacks `exp` (the model always has
`exp`), otherwise `decoded.exp < Math.floor(Date.now() / 1000)` — a strict
less-than against the current second. -/
def isTokenExpired (token : TokenStr) (nowSec : Nat) : Bool :=
  match decodeToken token with
  | none => true
  | some p => p.exp < nowSec

instance {ε α : Type} [DecidableEq ε] [DecidableEq α] : DecidableEq (Except ε α) := fun a b =>
  match a, b with
  | .ok x, .ok y =>
    if h : x = y then .isTrue (by rw [h]) else .isFalse (by simp [h])
  | .error x, .error y =>
    if h : x = y then .isTrue (by rw [h]) else .isFalse (by simp [h])
  | .ok _, .error _ => .isFalse (by simp)
  | .error _, .ok _ => .isFalse (by simp)


/-! ## The user model (`src/models/User.ts`) and its collection -/

/-- A persisted user document. Fields as in the Mongoose `userSchema`:
`password` stores the bcrypt hash (the pre-save hook hashes any modified
plaintext before it reaches storage), the two one-time-token pairs are
nullable, `refreshTokens` is the array of currently valid refresh-token
strings, and `createdAt` is the creation timestamp (ms). Schema-level
trimming and format validation of `email`/`firstName`/`lastName` are input
sanitisation outside the properties studied here and are not modelled. -/
structure UserRec where
  id : String
  email : String
  password : String
  firstName : String
  lastName : String
  isEmailVerified : Bool
  emailVerificationToken : Option String
  emailVerificationExpires : Option Nat
  passwordResetToken : Option String
  passwordResetExpires : Option Nat
  refreshTokens : List TokenStr
  createdAt : Nat
deriving DecidableEq, Repr

/-- Model of `bcrypt.hash` (cost-factor details abstracted away; the claims
depend only on the hash/compare round-trip, never on hash internals). -/
def bcryptHash (plain : String) : String :=
  String.append "bcrypt$" plain

/-- Model of `bcrypt.compare`: the candidate matches exactly the hash it
produces. -/
def bcryptCompare (candidate hash : String) : Bool :=
  hash == bcryptHash candidate

namespace UserRec

/-- The `userSchema.methods.addRefreshToken`: pushes onto the array. -/
def addRefreshToken (u : UserRec) (t : TokenStr) : UserRec :=
  { u with refreshTokens := u.refreshTokens ++ [t] }

/-- The `userSchema.methods.removeRefreshToken`: filters out every occurrence. -/
def removeRefreshToken (u : UserRec) (t : TokenStr) : UserRec :=
  { u with refreshTokens := u.refreshTokens.filter (fun x => x ≠ t) }

/-- The `userSchema.methods.hasRefreshToken`: array membership. -/
def hasRefreshToken (u : UserRec) (t : TokenStr) : Bool :=
  u.refreshTokens.contains t

/-- The `userSchema.methods.clearRefreshTokens`: empties the array. -/
def clearRefreshTokens (u : UserRec) : UserRec :=
  { u with refreshTokens := [] }

/-- The `userSchema.methods.comparePassword`: bcrypt-compares the candidate to
the stored hash. -/
def comparePassword (u : UserRec) (candidate : String) : Bool :=
  bcryptCompare candidate u.password

end UserRec

/-- The user collection. MongoDB's `_id` is unique; theorems that rely on
uniqueness carry an explicit `Nodup` hypothesis on the id column. -/
abbrev DB := List UserRec

/-- JS `String.prototype.toLowerCase` on email strings: lowercase each
character. -/
def lowerStr (s : String) : String :=
  String.mk (s.data.map Char.toLower)

/-- The `User.findOne({email: e.toLowerCase()})`: stored emails are lowercased by
the schema, and the lookup lowercases the query. -/
def findByEmail (db : DB) (email : String) : Option UserRec :=
  db.find? (fun u => u.email == lowerStr email)

/-- The `User.findById`. -/
def findById (db : DB) (id : String) : Option UserRec :=
  db.find? (fun u => u.id == id)

/-- The `user.save()`: replaces the document with the same `_id`, or inserts the
document when its `_id` is not yet present. -/
def saveUser (db : DB) (u : UserRec) : DB :=
  if db.any (fun v => v.id == u.id) then
    db.map (fun v => if v.id == u.id then u else v)
  else
    db ++ [u]

/-- The `$gt: new Date()` comparison on a nullable Date field: strictly
greater than now, false when the field is null. -/
def afterNow (expires : Option Nat) (nowMs : Nat) : Bool :=
  match expires with
  | some e => nowMs < e
  | none => false

/-- The `User.findOne({emailVerificationToken: token, emailVerificationExpires:
{$gt: new Date()}})` — the lookup used by `verifyEmail` (and the
`findByVerificationToken` static): matches only while the stored expiry is
strictly in the future. -/
def findByVerificationToken (db : DB) (token : String) (nowMs : Nat) : Option UserRec :=
  db.find? (fun u =>
    u.emailVerificationToken == some token && afterNow u.emailVerificationExpires nowMs)

/-- The `User.findOne({passwordResetToken: token, passwordResetExpires:
{$gt: new Date()}})` — the lookup used by `resetPassword` (and the
`findByPasswordResetToken` static). -/
def findByPasswordResetToken (db : DB) (token : String) (nowMs : Nat) : Option UserRec :=
  db.find? (fun u =>
    u.passwordResetToken == some token && afterNow u.passwordResetExpires nowMs)

/-! ## The lifecycle operations (`src/services/authService.ts`) -/

/-- The `IUserRegistration` input. -/
structure Registration where
  email : String
  password : String
  firstName : String
  lastName : String
deriving DecidableEq, Repr

/-- The `IUserResponse`: the public projection returned to callers. -/
structure UserResponse where
  id : String
  email : String
  firstName : String
  lastName : String
  isEmailVerified : Bool
  createdAt : Nat
deriving DecidableEq, Repr

/-- The projection used at every `return {...}` site of `AuthService`. -/
def userResponse (u : UserRec) : UserResponse :=
  { id := u.id, email := u.email, firstName := u.firstName, lastName := u.lastName
    isEmailVerified := u.isEmailVerified, createdAt := u.createdAt }

/-- An outbound email handed to the notification sender. -/
inductive EmailMsg where
  | verification (recipient firstName token : String)
  | passwordReset (recipient firstName token : String)
deriving DecidableEq, Repr

/-- The `AuthService.registerUser`. Inputs beyond the registration data are the
effects the source draws from outside: `vtok` the random verification token
(`crypto.randomBytes(32).toString('hex')`), `newId` the id Mongo assigns,
`nowMs` the clock, and `emailOk` whether the verification-email send
succeeds. The send is attempted in both cases but its failure is swallowed
(logged only), so both branches return the same value. Output: result,
post-state, attempted sends. -/
def registerUser (db : DB) (reg : Registration) (vtok newId : String)
    (nowMs : Nat) (emailOk : Bool) :
    Except AppError UserResponse × DB × List EmailMsg :=
  match findByEmail db reg.email with
  | some _ => (.error (.conflict "User with this email already exists"), db, [])
  | none =>
    let user : UserRec :=
      { id := newId
        email := lowerStr reg.email
        password := bcryptHash reg.password
        firstName := reg.firstName
        lastName := reg.lastName
        isEmailVerified := false
        emailVerificationToken := some vtok
        emailVerificationExpires := some (nowMs + 24 * 60 * 60 * 1000)
        passwordResetToken := none
        passwordResetExpires := none
        refreshTokens := []
        createdAt := nowMs }
    let db' := saveUser db user
    let sent := [EmailMsg.verification user.email user.firstName vtok]
    if emailOk then (.ok (userResponse user), db', sent)
    else
      -- send threw: logged, deliberately not rethrown, registration stands
      (.ok (userResponse user), db', sent)

/-- The `IUserLogin` input. -/
structure LoginData where
  email : String
  password : String
deriving DecidableEq, Repr

/-- The `AuthService.loginUser`: unknown email and failed password comparison
both raise `AuthenticationError "Invalid email or password"`; on success a
fresh pair is issued and its refresh token pushed onto the user's array. -/
def loginUser (cfg : Config) (db : DB) (login : LoginData) (nowMs : Nat) :
    Except AppError (UserResponse × TokenResponse) × DB :=
  match findByEmail db login.email with
  | none => (.error (.authentication "Invalid email or password"), db)
  | some user =>
    if user.comparePassword login.password then
      let tokens := generateTokens cfg user.id user.email (nowMs / 1000)
      let user' := user.addRefreshToken tokens.refreshToken
      (.ok (userResponse user', tokens), saveUser db user')
    else
      (.error (.authentication "Invalid email or password"), db)

/-- The `AuthService.verifyEmail`: looks up by unexpired verification token,
marks the email verified, clears both verification fields. -/
def verifyEmail (db : DB) (token : String) (nowMs : Nat) :
    Except AppError UserResponse × DB :=
  match findByVerificationToken db token nowMs with
  | none => (.error (.validation "Invalid or expired verification token"), db)
  | some user =>
    let user' :=
      { user with
        isEmailVerified := true
        emailVerificationToken := none
        emailVerificationExpires := none }
    (.ok (userResponse user'), saveUser db user')

/-- The `AuthService.resendVerificationEmail`: `UserNotFound` when the email is
unknown, `AlreadyVerified` when already verified; otherwise stores a fresh
token/expiry pair, then sends. A send failure here is NOT swallowed: it
surfaces as the generic internal error, after the new token was persisted. -/
def resendVerificationEmail (db : DB) (email vtok : String) (nowMs : Nat)
    (emailOk : Bool) : Except AppError Unit × DB × List EmailMsg :=
  match findByEmail db email with
  | none => (.error (.notFound "User not found"), db, [])
  | some user =>
    if user.isEmailVerified then
      (.error (.validation "Email is already verified"), db, [])
    else
      let user' :=
        { user with
          emailVerificationToken := some vtok
          emailVerificationExpires := some (nowMs + 24 * 60 * 60 * 1000) }
      let db' := saveUser db user'
      let sent := [EmailMsg.verification user.email user.firstName vtok]
      if emailOk then (.ok (), db', sent)
      else (.error (.internal "Failed to resend verification email"), db', sent)

/-- The `AuthService.refreshToken`: codec verification, user lookup by the
token's `userId`, membership check against the stored array, then rotation:
remove the presented token, push the newly generated one, save. -/
def refreshToken (cfg : Config) (db : DB) (token : TokenStr) (nowMs : Nat) :
    Except AppError TokenResponse × DB :=
  match verifyRefreshToken cfg token (nowMs / 1000) with
  | .error e => (.error e, db)
  | .ok decoded =>
    match findById db decoded.userId with
    | none => (.error (.authentication "User not found"), db)
    | some user =>
      if user.hasRefreshToken token then
        let newTokens := generateTokens cfg user.id user.email (nowMs / 1000)
        let user' := (user.removeRefreshToken token).addRefreshToken newTokens.refreshToken
        (.ok newTokens, saveUser db user')
      else
        (.error (.authentication "Invalid refresh token"), db)

/-- The `AuthService.logout`: removes exactly the presented refresh token;
removing an absent token is not an error. -/
def logout (db : DB) (userId : String) (token : TokenStr) :
    Except AppError Unit × DB :=
  match findById db userId with
  | none => (.error (.notFound "User not found"), db)
  | some user => (.ok (), saveUser db (user.removeRefreshToken token))

/-- The `AuthService.logoutAllDevices`: clears the whole refresh-token array. -/
def logoutAllDevices (db : DB) (userId : String) :
    Except AppError Unit × DB :=
  match findById db userId with
  | none => (.error (.notFound "User not found"), db)
  | some user => (.ok (), saveUser db user.clearRefreshTokens)

/-- The `AuthService.getUserProfile`: read-only projection. -/
def getUserProfile (db : DB) (userId : String) : Except AppError UserResponse :=
  match findById db userId with
  | none => .error (.notFound "User not found")
  | some user => .ok (userResponse user)

/-- The `AuthService.requestPasswordReset`: unknown email returns silently with
no state change; otherwise a fresh reset token with expiry now + 1h is
persisted and the reset email is sent. A send failure is caught by the
catch-all and surfaces as the generic internal error — after the save. -/
def requestPasswordReset (db : DB) (email rtok : String) (nowMs : Nat)
    (emailOk : Bool) : Except AppError Unit × DB × List EmailMsg :=
  match findByEmail db email with
  | none => (.ok (), db, [])
  | some user =>
    let user' :=
      { user with
        passwordResetToken := some rtok
        passwordResetExpires := some (nowMs + 60 * 60 * 1000) }
    let db' := saveUser db user'
    let sent := [EmailMsg.passwordReset user.email user.firstName rtok]
    if emailOk then (.ok (), db', sent)
    else (.error (.internal "Failed to request password reset"), db', sent)

/-- The `AuthService.resetPassword`: looks up by unexpired reset token, replaces
the password (hashed by the pre-save hook), clears both reset fields, clears
every refresh token, saves. -/
def resetPassword (db : DB) (token newPassword : String) (nowMs : Nat) :
    Except AppError UserResponse × DB :=
  match findByPasswordResetToken db token nowMs with
  | none => (.error (.validation "Invalid or expired reset token"), db)
  | some user =>
    let user' :=
      { user with
        password := bcryptHash newPassword
        passwordResetToken := none
        passwordResetExpires := none
        refreshTokens := [] }
    (.ok (userResponse user'), saveUser db user')

/-! ## Store-level helper lemmas -/

theorem beq_id_eq {a b : String} (h : (a == b) = true) : a = b :=
  eq_of_beq h

/-- Every member of `saveUser db v` is the saved record or an untouched
record whose id differs from the saved one. -/
theorem mem_saveUser {db : DB} {v u' : UserRec} (h : u' ∈ saveUser db v) :
    u' = v ∨ (u' ∈ db ∧ u'.id ≠ v.id) := by
  unfold saveUser at h
  split at h
  · obtain ⟨w, hw, hfw⟩ := List.mem_map.mp h
    by_cases hid : (w.id == v.id) = true
    · rw [if_pos hid] at hfw
      exact Or.inl hfw.symm
    · rw [if_neg hid] at hfw
      refine Or.inr ⟨hfw ▸ hw, ?_⟩
      rw [← hfw]
      simpa using hid
  · rename_i hany
    rcases List.mem_append.mp h with h' | h'
    · refine Or.inr ⟨h', ?_⟩
      intro hid
      exact hany (List.any_eq_true.mpr ⟨u', h', by simp [hid]⟩)
    · exact Or.inl (List.mem_singleton.mp h')

/-- The saved record itself is a member of the post-state. -/
theorem self_mem_saveUser (db : DB) (v : UserRec) : v ∈ saveUser db v := by
  unfold saveUser
  split
  · rename_i h
    obtain ⟨w, hw, hwid⟩ := List.any_eq_true.mp h
    exact List.mem_map.mpr ⟨w, hw, by rw [if_pos hwid]⟩
  · exact List.mem_append.mpr (Or.inr (List.mem_singleton.mpr rfl))

/-- Saving never deletes: some record with any previously present id
survives into the post-state. -/
theorem exists_id_saveUser {db : DB} (v : UserRec) {u : UserRec} (hu : u ∈ db) :
    ∃ w ∈ saveUser db v, w.id = u.id := by
  by_cases hid : u.id = v.id
  · refine ⟨v, ?_, hid.symm⟩
    unfold saveUser
    split
    · exact List.mem_map.mpr ⟨u, hu, by simp [hid]⟩
    · exact List.mem_append.mpr (Or.inr (List.mem_singleton.mpr rfl))
  · refine ⟨u, ?_, rfl⟩
    unfold saveUser
    split
    · exact List.mem_map.mpr ⟨u, hu, by simp [hid]⟩
    · exact List.mem_append.mpr (Or.inl hu)

/-- With a duplicate-free id column, members are determined by their id. -/
theorem id_inj {db : DB} (hnd : (db.map UserRec.id).Nodup) {a b : UserRec}
    (ha : a ∈ db) (hb : b ∈ db) (h : a.id = b.id) : a = b :=
  List.inj_on_of_nodup_map hnd ha hb h

/-- Replacing every id-matching record by `v` makes an id-indexed `find?`
that previously succeeded return `v`. -/
theorem find?_id_map_replace {i : String} {v : UserRec} (hv : v.id = i) :
    ∀ {l : List UserRec} {u : UserRec},
      l.find? (fun w => w.id == i) = some u →
      (l.map (fun w => if w.id == v.id then v else w)).find? (fun w => w.id == i) = some v := by
  intro l
  induction l with
  | nil => intro u hf; simp at hf
  | cons w ws ih =>
    intro u hf
    by_cases h : w.id = i
    · have hb : (w.id == v.id) = true := by simp [h, hv]
      simp only [List.map_cons, if_pos hb]
      rw [List.find?_cons_of_pos _ (by simp [hv])]
    · have hb : (w.id == v.id) = false := by simp [h, hv]
      have hb2 : (w.id == i) = false := by simp [h]
      rw [List.find?_cons_of_neg _ (by simp [h])] at hf
      simp only [List.map_cons, hb, Bool.false_eq_true, if_false]
      rw [List.find?_cons_of_neg _ (by simp [h])]
      exact ih hf

/-- The `findById` after a save of a record with the found id returns the saved
record. -/
theorem findById_saveUser {db : DB} {i : String} {u : UserRec} (v : UserRec)
    (hf : findById db i = some u) (hv : v.id = u.id) :
    findById (saveUser db v) i = some v := by
  unfold findById at hf ⊢
  have hui0 : (u.id == i) = true :=
    @List.find?_some UserRec (fun w => w.id == i) u db hf
  have hui : u.id = i := beq_id_eq hui0
  have hmem : u ∈ db := List.mem_of_find?_eq_some hf
  have hvi : v.id = i := hv.trans hui
  unfold saveUser
  have hany : db.any (fun w => w.id == v.id) = true :=
    List.any_eq_true.mpr ⟨u, hmem, by simp [hvi, hui]⟩
  rw [if_pos hany]
  exact find?_id_map_replace hvi hf

/-! ## Concrete fixture shared by witnesses -/

/-- A stored user with two active sessions and a pending password-reset
token (expiry 9000000 ms). -/
def wUser : UserRec :=
  { id := "u1", email := "a@x.com", password := bcryptHash "Secret123"
    firstName := "Ann", lastName := "Lee", isEmailVerified := true
    emailVerificationToken := none, emailVerificationExpires := none
    passwordResetToken := some "rtok", passwordResetExpires := some 9000000
    refreshTokens := [generateRefreshToken defaultConfig "u1" "a@x.com" 1,
                      generateRefreshToken defaultConfig "u1" "a@x.com" 2]
    createdAt := 0 }

/-! ## Claim C4 -/

/-- Claim **C4**: whenever the presented reset token matches a record with an
unexpired `passwordResetExpires`, `resetPassword` succeeds, and in the
post-state every record with that user's id carries the new password hash,
cleared reset fields, and an empty refresh-token set — whatever the prior
content of `refreshTokens` was (the statement quantifies over the stored
record, hence over sets of size 0, 1 or N). -/
theorem resetPassword_clears_all_sessions
    (db : DB) (token newPassword : String) (nowMs : Nat) (user : UserRec)
    (hfind : findByPasswordResetToken db token nowMs = some user) :
    (resetPassword db token newPassword nowMs).1
        = .ok (userResponse { user with
            password := bcryptHash newPassword
            passwordResetToken := none
            passwordResetExpires := none
            refreshTokens := [] }) ∧
    ∀ u' ∈ (resetPassword db token newPassword nowMs).2, u'.id = user.id →
      u'.password = bcryptHash newPassword ∧ u'.passwordResetToken = none ∧
        u'.passwordResetExpires = none ∧ u'.refreshTokens = [] := by
  unfold resetPassword
  rw [hfind]
  refine ⟨rfl, ?_⟩
  intro u' hu' hid
  rcases mem_saveUser hu' with h | ⟨_, hne⟩
  · subst h; exact ⟨rfl, rfl, rfl, rfl⟩
  · exact absurd hid hne

/-- Witness for C4 at a concrete store whose user has two active refresh
tokens. -/
theorem resetPassword_clears_all_sessions_witness :
    (resetPassword [wUser] "rtok" "NewSecret1" 5000000).1
      = .ok (userResponse { wUser with
          password := bcryptHash "NewSecret1"
          passwordResetToken := none
          passwordResetExpires := none
          refreshTokens := [] }) :=
  (resetPassword_clears_all_sessions [wUser] "rtok" "NewSecret1" 5000000 wUser (by rfl)).1

/-! ## Claim C5 -/

/-- Claim **C5**: a login whose email matches no record and a login whose email
matches but whose password comparison fails return the identical error —
`AuthenticationError "Invalid email or password"` (`InvalidCredentials`) —
and leave the store untouched, so the two failure causes are
observationally indistinguishable. -/
theorem login_failures_indistinguishable
    (cfg : Config) (db : DB) (l1 l2 : LoginData) (now1 now2 : Nat) (u : UserRec)
    (h1 : findByEmail db l1.email = none)
    (h2 : findByEmail db l2.email = some u)
    (h3 : u.comparePassword l2.password = false) :
    loginUser cfg db l1 now1 = (.error (.authentication "Invalid email or password"), db) ∧
    loginUser cfg db l2 now2 = (.error (.authentication "Invalid email or password"), db) := by
  constructor
  · unfold loginUser; rw [h1]
  · unfold loginUser; rw [h2]; simp [h3]

/-- Witness for C5: unknown email vs. wrong password against a concrete
store; both produce the same error value. -/
theorem login_failures_indistinguishable_witness :
    loginUser defaultConfig [wUser] ⟨"z@x.com", "whatever"⟩ 1
        = (.error (.authentication "Invalid email or password"), [wUser]) ∧
    loginUser defaultConfig [wUser] ⟨"a@x.com", "wrongpw"⟩ 2
        = (.error (.authentication "Invalid email or password"), [wUser]) :=
  login_failures_indistinguishable defaultConfig [wUser]
    ⟨"z@x.com", "whatever"⟩ ⟨"a@x.com", "wrongpw"⟩ 1 2 wUser
    (by rfl) (by rfl) (by rfl)

/-! ## Claim C6 -/

/-- Claim **C6**: `requestPasswordReset` on an email matching no record returns
success with the store unchanged and no delivery attempted; on a matching
email it attempts exactly one reset delivery and persists a fresh reset
token with expiry now + 1 hour on that user's record. -/
theorem requestPasswordReset_enumeration_silent
    (db : DB) (email rtok : String) (nowMs : Nat) (emailOk : Bool) :
    (findByEmail db email = none →
      requestPasswordReset db email rtok nowMs emailOk = (.ok (), db, [])) ∧
    (∀ u, findByEmail db email = some u →
      ((requestPasswordReset db email rtok nowMs emailOk).2.2
          = [EmailMsg.passwordReset u.email u.firstName rtok]) ∧
      ∀ u' ∈ (requestPasswordReset db email rtok nowMs emailOk).2.1, u'.id = u.id →
        u'.passwordResetToken = some rtok ∧
          u'.passwordResetExpires = some (nowMs + 60 * 60 * 1000)) := by
  constructor
  · intro h; unfold requestPasswordReset; rw [h]
  · intro u h
    unfold requestPasswordReset
    rw [h]
    cases emailOk <;>
      · refine ⟨rfl, ?_⟩
        intro u' hu' hid
        rcases mem_saveUser hu' with h' | ⟨_, hne⟩
        · subst h'; exact ⟨rfl, rfl⟩
        · exact absurd hid hne

/-- Witness for C6 at a concrete store: unknown email, silent success and
no state change. -/
theorem requestPasswordReset_enumeration_silent_witness :
    requestPasswordReset [wUser] "z@x.com" "fresh" 5 true = (.ok (), [wUser], []) :=
  (requestPasswordReset_enumeration_silent [wUser] "z@x.com" "fresh" 5 true).1 (by rfl)

/-! ## Claim C7 -/

/-- Claim **C7**: once the duplicate-email check has passed, a failing
verification-email delivery changes nothing: the run with failed delivery is
identical to the run with successful delivery, the result is the created
user (success, no error), and the created record is in the post-state. -/
theorem register_survives_email_failure
    (db : DB) (reg : Registration) (vtok newId : String) (nowMs : Nat)
    (h : findByEmail db reg.email = none) :
    registerUser db reg vtok newId nowMs false = registerUser db reg vtok newId nowMs true ∧
    (registerUser db reg vtok newId nowMs false).1
        = .ok { id := newId, email := lowerStr reg.email, firstName := reg.firstName
                lastName := reg.lastName, isEmailVerified := false, createdAt := nowMs } ∧
    ∃ u' ∈ (registerUser db reg vtok newId nowMs false).2.1, u'.id = newId := by
  unfold registerUser
  rw [h]
  exact ⟨rfl, rfl, _, self_mem_saveUser db _, rfl⟩

/-- Witness for C7: a concrete registration whose verification email fails
still returns the created user. -/
theorem register_survives_email_failure_witness :
    (registerUser [wUser] ⟨"new@x.com", "Pass12345", "Bo", "Chu"⟩ "vtk" "u2" 7 false).1
        = .ok { id := "u2", email := "new@x.com", firstName := "Bo"
                lastName := "Chu", isEmailVerified := false, createdAt := 7 } := by
  have h :=
    (register_survives_email_failure [wUser] ⟨"new@x.com", "Pass12345", "Bo", "Chu"⟩
      "vtk" "u2" 7 (by rfl)).2.1
  exact h

/-! ## Claim C10 -/

/-- Claim **C10**: when the user exists and the reset-email delivery fails,
`requestPasswordReset` surfaces the generic internal error, yet the freshly
generated reset token and its expiry are already persisted on the record —
the state change is not rolled back. -/
theorem requestPasswordReset_error_after_persist
    (db : DB) (email rtok : String) (nowMs : Nat) (u : UserRec)
    (h : findByEmail db email = some u) :
    (requestPasswordReset db email rtok nowMs false).1
        = .error (.internal "Failed to request password reset") ∧
    ∀ u' ∈ (requestPasswordReset db email rtok nowMs false).2.1, u'.id = u.id →
      u'.passwordResetToken = some rtok ∧
        u'.passwordResetExpires = some (nowMs + 60 * 60 * 1000) := by
  unfold requestPasswordReset
  rw [h]
  refine ⟨rfl, ?_⟩
  intro u' hu' hid
  rcases mem_saveUser hu' with h' | ⟨_, hne⟩
  · subst h'; exact ⟨rfl, rfl⟩
  · exact absurd hid hne

/-- Witness for C10 at a concrete store: failed delivery surfaces the
internal error. -/
theorem requestPasswordReset_error_after_persist_witness :
    (requestPasswordReset [wUser] "a@x.com" "fresh2" 5 false).1
        = .error (.internal "Failed to request password reset") :=
  (requestPasswordReset_error_after_persist [wUser] "a@x.com" "fresh2" 5 wUser (by rfl)).1

/-! ## Claim C2 -/

/-- Claim **C2** (amended): verifying an access token with `verifyAccessToken`
before its expiry returns the original `subjectId`/`email`; presenting that
same string to `verifyRefreshToken` fails — but with the malformed-token
error "Invalid refresh token" (the signature check against the distinct
refresh secret fails first), not with the kind-mismatch error
"Invalid token type". The kind check would only be reached if the two
secrets were configured equal. -/
theorem access_token_roundtrip_and_cross_kind
    (uid email : String) (tIss tVer : Nat)
    (hlive : tVer < tIss + 900) :
    verifyAccessToken defaultConfig (generateAccessToken defaultConfig uid email tIss) tVer
        = .ok { userId := uid, email := email, type := "access"
                iat := tIss, exp := tIss + 900 } ∧
    verifyRefreshToken defaultConfig (generateAccessToken defaultConfig uid email tIss) tVer
        = .error (.authentication "Invalid refresh token") := by
  have h900 : (lifetimeSeconds defaultConfig.jwtAccessExpiresIn).getD 0 = 900 := rfl
  have hsec : defaultConfig.jwtAccessSecret ≠ defaultConfig.jwtRefreshSecret := by decide
  have hnl : ¬(tIss + 900 ≤ tVer) := by omega
  constructor
  · simp [generateAccessToken, verifyAccessToken, h900, hnl]
  · simp [generateAccessToken, verifyRefreshToken, hsec]

/-- Witness for C2 (amended) at a concrete subject and clock. -/
theorem access_token_roundtrip_and_cross_kind_witness :
    verifyAccessToken defaultConfig (generateAccessToken defaultConfig "u" "e" 0) 1
        = .ok { userId := "u", email := "e", type := "access", iat := 0, exp := 900 } ∧
    verifyRefreshToken defaultConfig (generateAccessToken defaultConfig "u" "e" 0) 1
        = .error (.authentication "Invalid refresh token") :=
  access_token_roundtrip_and_cross_kind "u" "e" 0 1 (by omega)

/-- Counterexample to C2 as stated: the cross-verification error is the
malformed-token error "Invalid refresh token", not the kind-mismatch error
"Invalid token type" that the claim names. -/
theorem access_to_refresh_not_kind_mismatch :
    verifyRefreshToken defaultConfig (generateAccessToken defaultConfig "u" "e" 0) 0
        = .error (.authentication "Invalid refresh token") ∧
    verifyRefreshToken defaultConfig (generateAccessToken defaultConfig "u" "e" 0) 0
        ≠ .error (.authentication "Invalid token type") := by
  refine ⟨rfl, ?_⟩
  intro h
  rw [show verifyRefreshToken defaultConfig (generateAccessToken defaultConfig "u" "e" 0) 0
        = .error (.authentication "Invalid refresh token") from rfl] at h
  exact absurd (AppError.authentication.inj (Except.error.inj h)) (by decide)

/-! ## Claim C3 -/

/-- Claim **C3** (amended): the one-time-token lookups are strict at the boundary —
a record whose stored expiry equals the current instant is never returned by
`findByVerificationToken` or `findByPasswordResetToken` — and `isTokenExpired`
never throws and reports undecodable tokens as expired; but for a decodable
token `isTokenExpired` uses a strict less-than, so a token whose `exp` equals
the current second is reported NOT expired (even though `jwt.verify`, hence
`verifyRefreshToken`, already rejects it as expired at that same instant). -/
theorem one_time_token_boundary_strict
    (db : DB) (tok : String) (nowMs : Nat) (u : UserRec) :
    (findByVerificationToken db tok nowMs = some u →
      u.emailVerificationExpires ≠ some nowMs) ∧
    (findByPasswordResetToken db tok nowMs = some u →
      u.passwordResetExpires ≠ some nowMs) ∧
    (∀ t : TokenStr, decodeToken t = none → ∀ n, isTokenExpired t n = true) ∧
    (∀ p : JwtPayload, ∀ s : String, isTokenExpired (.signed p s) p.exp = false) ∧
    (∀ p : JwtPayload, p.type = "refresh" →
      verifyRefreshToken defaultConfig (.signed p defaultConfig.jwtRefreshSecret) p.exp
        = .error (.authentication "Refresh token expired")) := by
  refine ⟨?_, ?_, ?_, ?_, ?_⟩
  · intro h hEq
    unfold findByVerificationToken at h
    have hp := @List.find?_some UserRec
      (fun w => w.emailVerificationToken == some tok && afterNow w.emailVerificationExpires nowMs)
      u db h
    simp [hEq, afterNow] at hp
  · intro h hEq
    unfold findByPasswordResetToken at h
    have hp := @List.find?_some UserRec
      (fun w => w.passwordResetToken == some tok && afterNow w.passwordResetExpires nowMs)
      u db h
    simp [hEq, afterNow] at hp
  · intro t ht n
    cases t with
    | signed p s => simp [decodeToken] at ht
    | malformed s => rfl
  · intro p s
    simp [isTokenExpired, decodeToken]
  · intro p _
    simp [verifyRefreshToken]

/-- The fixture user with a pending email-verification token (expiry 600). -/
def wUserV : UserRec :=
  { wUser with
      emailVerificationToken := some "vt"
      emailVerificationExpires := some 600 }

/-- Witness for C3 (amended) at a concrete store and clock: the record whose
verification-token expiry is strictly later than now is found and its expiry
is not now. -/
theorem one_time_token_boundary_strict_witness :
    wUserV.emailVerificationExpires ≠ some 500 :=
  (one_time_token_boundary_strict [wUserV] "vt" 500 wUserV).1 (by rfl)

/-- Counterexample to C3 as stated: a token whose `exp` claim equals the
current second is reported NOT expired by `isTokenExpired`, although the
claim says every token whose expiry equals "now" is already invalid. -/
theorem isTokenExpired_at_boundary_cex :
    isTokenExpired
      (.signed { userId := "u", email := "e", type := "access", iat := 0, exp := 100 }
        defaultConfig.jwtAccessSecret) 100 = false := rfl

/-! ## Claim C8 -/

/-- All-digit prefix followed by a non-matching character: `takeWhile` keeps
exactly the prefix and `dropWhile` leaves exactly the stop character. -/
theorem takeWhile_all_append_stop {p : Char → Bool} {ds : List Char} {c : Char}
    (h : ∀ x ∈ ds, p x = true) (hc : p c = false) :
    (ds ++ [c]).takeWhile p = ds ∧ (ds ++ [c]).dropWhile p = [c] := by
  induction ds with
  | nil => simp [List.takeWhile, List.dropWhile, hc]
  | cons d rest ih =>
    have hd : p d = true := h d (by simp)
    obtain ⟨h1, h2⟩ := ih (fun x hx => h x (by simp [hx]))
    simp [List.takeWhile_cons, List.dropWhile_cons, hd, h1, h2]

/-- Claim **C8** (amended): `generateTokens` reports
`expiresIn = (digits of the configured access lifetime) * 60`, which equals
the number of seconds the lifetime string denotes exactly when the lifetime
is minute-denominated: for a lifetime of the form `<digits>m` both the
reported value and the denotation are `n * 60`. (For other units the two
diverge — see the counterexample.) -/
theorem expiresIn_tracks_minute_lifetimes
    (cfg : Config) (uid email : String) (nowSec : Nat) (ds : List Char) (n : Nat)
    (hds : ∀ c ∈ ds, c.isDigit = true)
    (hn : digitsToNat ds = some n)
    (hcfg : cfg.jwtAccessExpiresIn = String.mk (ds ++ ['m'])) :
    (generateTokens cfg uid email nowSec).expiresIn = some (n * 60) ∧
    lifetimeSeconds cfg.jwtAccessExpiresIn = some (n * 60) := by
  have hm : ('m' : Char).isDigit = false := rfl
  obtain ⟨htake, hdrop⟩ := takeWhile_all_append_stop hds hm
  have hfilter : (ds ++ ['m']).filter Char.isDigit = ds := by
    rw [List.filter_append, List.filter_eq_self.mpr hds]
    simp [hm]
  constructor
  · show (digitsToNat (cfg.jwtAccessExpiresIn.data.filter Char.isDigit)).map (· * 60)
        = some (n * 60)
    rw [hcfg]
    show (digitsToNat ((ds ++ ['m']).filter Char.isDigit)).map (· * 60) = some (n * 60)
    rw [hfilter, hn]
    rfl
  · rw [hcfg]
    unfold lifetimeSeconds leadingNat
    show (match digitsToNat ((ds ++ ['m']).takeWhile Char.isDigit) with
      | none => none
      | some n =>
        match String.mk ((ds ++ ['m']).dropWhile Char.isDigit) with
        | "" => some (n / 1000)
        | "s" => some n
        | "m" => some (n * 60)
        | "h" => some (n * 3600)
        | "d" => some (n * 86400)
        | _ => none) = some (n * 60)
    rw [htake, hdrop, hn]
    rfl

/-- Witness for C8 (amended): lifetime "45m" reports 2700 seconds, the
denoted value. -/
theorem expiresIn_tracks_minute_lifetimes_witness :
    (generateTokens { defaultConfig with jwtAccessExpiresIn := String.mk ['4', '5', 'm'] }
        "u" "e" 0).expiresIn = some (45 * 60) ∧
    lifetimeSeconds ({ defaultConfig with
        jwtAccessExpiresIn := String.mk ['4', '5', 'm'] } : Config).jwtAccessExpiresIn
      = some (45 * 60) :=
  expiresIn_tracks_minute_lifetimes
    { defaultConfig with jwtAccessExpiresIn := String.mk ['4', '5', 'm'] }
    "u" "e" 0 ['4', '5'] 45 (by decide) (by rfl) (by rfl)

/-- Counterexample to C8 as stated: with the configured lifetime "2h"
(denoting 7200 seconds, and used as such to set the signed expiry) the
reported `expiresIn` is 120, because the source strips the unit and always
multiplies by 60. -/
theorem expiresIn_hours_cex :
    (generateTokens { defaultConfig with jwtAccessExpiresIn := "2h" } "u" "e" 0).expiresIn
        = some 120 ∧
    lifetimeSeconds "2h" = some 7200 ∧
    (generateTokens { defaultConfig with jwtAccessExpiresIn := "2h" } "u" "e" 0).expiresIn
        ≠ lifetimeSeconds "2h" := by
  refine ⟨rfl, rfl, ?_⟩
  intro h
  rw [show (generateTokens { defaultConfig with jwtAccessExpiresIn := "2h" } "u" "e" 0).expiresIn
        = some 120 from rfl,
      show lifetimeSeconds "2h" = some 7200 from rfl] at h
  exact absurd (Option.some.inj h) (by decide)

/-! ## Claim C1 -/

/-- Claim **C1** (amended): after a successful `Refresh` consuming token `t`, any
subsequent `Refresh` presenting `t` — while `t` itself has not yet expired —
fails with `InvalidRefreshToken` and leaves the store unchanged, PROVIDED the
replacement refresh token issued by the successful call differs from `t`.
(The proviso is forced: HS256 signing is deterministic, so a rotation
performed in the same issued-at second as `t`'s issuance regenerates the
identical token string and re-adds it — see the counterexample.) -/
theorem refresh_rotation_one_shot
    (cfg : Config) (db : DB) (t : TokenStr) (now1 now2 : Nat)
    (toks : TokenResponse) (db' : DB)
    (h1 : refreshToken cfg db t now1 = (.ok toks, db'))
    (hne : toks.refreshToken ≠ t)
    (hexp : ∀ p s, t = .signed p s → now2 / 1000 < p.exp) :
    refreshToken cfg db' t now2
      = (.error (.authentication "Invalid refresh token"), db') := by
  unfold refreshToken at h1
  split at h1
  · exact absurd (congrArg Prod.fst h1) (by simp)
  · rename_i decoded hv
    split at h1
    · exact absurd (congrArg Prod.fst h1) (by simp)
    · rename_i user hf
      split at h1
      case isFalse => exact absurd (congrArg Prod.fst h1) (by simp)
      case isTrue hh =>
        simp only [Prod.mk.injEq, Except.ok.injEq] at h1
        obtain ⟨htoks, hdb'0⟩ := h1
        have hdb' : db'
            = saveUser db ((user.removeRefreshToken t).addRefreshToken toks.refreshToken) := by
          rw [← hdb'0, htoks]
        -- dissect the successful codec verification
        cases t with
        | malformed s => simp [verifyRefreshToken] at hv
        | signed p secret =>
          by_cases hsec : secret = cfg.jwtRefreshSecret
          · subst hsec
            by_cases hex1 : p.exp ≤ now1 / 1000
            · simp [verifyRefreshToken, hex1] at hv
            · by_cases hty : p.type = "refresh"
              · have hdec : decoded = p := by
                  simp [verifyRefreshToken, hex1, hty] at hv
                  exact hv.symm
                subst hdec
                -- second call: after the substitution the payload is named
                -- `decoded` throughout
                have hv2 : verifyRefreshToken cfg
                    (.signed decoded cfg.jwtRefreshSecret) (now2 / 1000) = .ok decoded := by
                  have hex2 : ¬ decoded.exp ≤ now2 / 1000 := by
                    have := hexp decoded cfg.jwtRefreshSecret rfl
                    omega
                  simp [verifyRefreshToken, hex2, hty]
                have hfind2 : findById db' decoded.userId
                    = some (UserRec.addRefreshToken
                        (user.removeRefreshToken (.signed decoded cfg.jwtRefreshSecret))
                        toks.refreshToken) := by
                  rw [hdb']
                  exact findById_saveUser _ hf rfl
                have hmem2 : (UserRec.addRefreshToken
                      (user.removeRefreshToken (.signed decoded cfg.jwtRefreshSecret))
                      toks.refreshToken).hasRefreshToken
                      (.signed decoded cfg.jwtRefreshSecret) = false := by
                  have hnm : (TokenStr.signed decoded cfg.jwtRefreshSecret) ∉
                      (UserRec.addRefreshToken
                        (user.removeRefreshToken (.signed decoded cfg.jwtRefreshSecret))
                        toks.refreshToken).refreshTokens := by
                    intro hmem
                    rcases List.mem_append.mp hmem with hmm | hmm
                    · exact absurd (List.mem_filter.mp hmm).2 (by simp)
                    · exact hne (List.mem_singleton.mp hmm).symm
                  unfold UserRec.hasRefreshToken
                  simpa using hnm
                unfold refreshToken
                simp only [hv2, hfind2, hmem2, Bool.false_eq_true, if_false]
              · simp [verifyRefreshToken, hex1, hty] at hv
          · simp [verifyRefreshToken, hsec] at hv

/-- The session token of the C1 scenarios: a refresh token issued at second
1000 for the fixture user. -/
def c1tok : TokenStr := generateRefreshToken defaultConfig "u1" "a@x.com" 1000

/-- The fixture user holding exactly that refresh token. -/
def c1user : UserRec := { wUser with refreshTokens := [c1tok] }

/-- Witness for C1 (amended): rotation at second 2000 (a different signing
second, so the replacement token differs), then replay at second 3000 fails
with the invalid-refresh-token error. -/
theorem refresh_rotation_one_shot_witness :
    refreshToken defaultConfig (refreshToken defaultConfig [c1user] c1tok 2000000).2
        c1tok 3000000
      = (.error (.authentication "Invalid refresh token"),
         (refreshToken defaultConfig [c1user] c1tok 2000000).2) :=
  refresh_rotation_one_shot defaultConfig [c1user] c1tok 2000000 3000000
    (generateTokens defaultConfig "u1" "a@x.com" 2000)
    (refreshToken defaultConfig [c1user] c1tok 2000000).2
    (by rfl)
    (by decide)
    (by intro p s h
        have h' : TokenStr.signed
            { userId := "u1", email := "a@x.com", type := "refresh"
              iat := 1000, exp := 605800 }
            defaultConfig.jwtRefreshSecret = .signed p s := h
        injection h' with hp hs
        rw [← hp]
        decide)

/-- Counterexample to C1 as stated: a `Refresh` performed in the same
issued-at second as the presented token's issuance succeeds, regenerates the
identical refresh-token string, and re-adds it — so a subsequent `Refresh`
presenting the very same `t` succeeds instead of failing with
`InvalidRefreshToken`. -/
theorem refresh_rotation_one_shot_cex :
    (refreshToken defaultConfig [c1user] c1tok 1000000).1
        = .ok (generateTokens defaultConfig "u1" "a@x.com" 1000) ∧
    (generateTokens defaultConfig "u1" "a@x.com" 1000).refreshToken = c1tok ∧
    (refreshToken defaultConfig (refreshToken defaultConfig [c1user] c1tok 1000000).2
        c1tok 2000000).1
      = .ok (generateTokens defaultConfig "u1" "a@x.com" 2000) := by
  exact ⟨rfl, rfl, rfl⟩

/-! ## Claim C9: the lifecycle state machine -/

/-- One lifecycle-manager invocation, with the external inputs (clock,
random tokens, fresh id, delivery outcome) frozen into the step. -/
inductive Op where
  | registerStep (reg : Registration) (vtok newId : String) (nowMs : Nat) (emailOk : Bool)
  | verifyStep (token : String) (nowMs : Nat)
  | resendStep (email vtok : String) (nowMs : Nat) (emailOk : Bool)
  | loginStep (l : LoginData) (nowMs : Nat)
  | refreshStep (t : TokenStr) (nowMs : Nat)
  | logoutStep (userId : String) (t : TokenStr)
  | logoutAll (userId : String)
  | requestResetStep (email rtok : String) (nowMs : Nat) (emailOk : Bool)
  | resetStep (token newPassword : String) (nowMs : Nat)
  | profileStep (userId : String)
deriving DecidableEq

/-- Whether the step is the email-verification consumption operation. -/
def Op.isVerify : Op → Bool
  | .verifyStep _ _ => true
  | _ => false

/-- The store state after one lifecycle invocation (on error paths the
operations return the store they left behind, which is how the embedding
already models them). -/
def applyOp (cfg : Config) (db : DB) : Op → DB
  | .registerStep reg vtok newId nowMs emailOk =>
    (registerUser db reg vtok newId nowMs emailOk).2.1
  | .verifyStep token nowMs => (verifyEmail db token nowMs).2
  | .resendStep email vtok nowMs emailOk =>
    (resendVerificationEmail db email vtok nowMs emailOk).2.1
  | .loginStep l nowMs => (loginUser cfg db l nowMs).2
  | .refreshStep t nowMs => (refreshToken cfg db t nowMs).2
  | .logoutStep userId t => (logout db userId t).2
  | .logoutAll userId => (logoutAllDevices db userId).2
  | .requestResetStep email rtok nowMs emailOk =>
    (requestPasswordReset db email rtok nowMs emailOk).2.1
  | .resetStep token newPassword nowMs => (resetPassword db token newPassword nowMs).2
  | .profileStep _ => db

/-- Well-formedness of a step against a store: a registration's fresh id
(assigned by the database) is not already present. All other steps are
unconstrained. -/
def opFresh (db : DB) : Op → Prop
  | .registerStep _ _ newId _ _ => ∀ u ∈ db, u.id ≠ newId
  | _ => True

/-- The store after a sequence of lifecycle invocations. -/
def applyOps (cfg : Config) (db : DB) : List Op → DB
  | [] => db
  | op :: ops => applyOps cfg (applyOp cfg db op) ops

/-- Every step of the trace is well-formed against the store it runs on. -/
def FreshTrace (cfg : Config) (db : DB) : List Op → Prop
  | [] => True
  | op :: ops => opFresh db op ∧ FreshTrace cfg (applyOp cfg db op) ops

/-- Saving a record whose id is already present leaves the id column
unchanged. -/
theorem saveUser_map_id_of_any {db : DB} {v : UserRec}
    (h : db.any (fun w => w.id == v.id) = true) :
    (saveUser db v).map UserRec.id = db.map UserRec.id := by
  unfold saveUser
  rw [if_pos h, List.map_map]
  refine List.map_congr_left ?_
  intro w hw
  by_cases hid : (w.id == v.id) = true
  · simp only [Function.comp_apply, if_pos hid]
    exact (beq_id_eq hid).symm
  · simp only [Function.comp_apply, if_neg hid]

/-- Saving a record with a fresh id appends that id to the id column. -/
theorem saveUser_map_id_of_fresh {db : DB} {v : UserRec}
    (h : db.any (fun w => w.id == v.id) = false) :
    (saveUser db v).map UserRec.id = db.map UserRec.id ++ [v.id] := by
  unfold saveUser
  rw [if_neg (by simp [h]), List.map_append]
  rfl

/-- A record found in the store certifies the `any` guard of `saveUser`. -/
theorem any_id_of_mem {db : DB} {u0 : UserRec} (h : u0 ∈ db) {v : UserRec}
    (hv : v.id = u0.id) : db.any (fun w => w.id == v.id) = true :=
  List.any_eq_true.mpr ⟨u0, h, by simp [hv]⟩

/-- Frame property of `saveUser` on the verified flag (and any other field):
with a duplicate-free id column, a member of the post-state with the id of a
pre-state member is either that untouched member, or the saved record
replacing exactly it. -/
theorem saveUser_flag_frame {db : DB} (hnd : (db.map UserRec.id).Nodup)
    {u0 v u u' : UserRec} (hu0 : u0 ∈ db) (hu : u ∈ db)
    (hu' : u' ∈ saveUser db v) (hid : u'.id = u.id) (hvid : v.id = u0.id) :
    u' = u ∨ (u0 = u ∧ u' = v) := by
  rcases mem_saveUser hu' with h | ⟨hmem, _⟩
  · refine Or.inr ⟨?_, h⟩
    refine id_inj hnd hu0 hu ?_
    rw [← hvid, ← h, hid]
  · exact Or.inl (id_inj hnd hmem hu hid)

/-- Membership extraction from a successful `find?`-based store lookup. -/
theorem mem_of_find_eq_some {p : UserRec → Bool} {db : DB} {u : UserRec}
    (h : db.find? p = some u) : u ∈ db :=
  List.mem_of_find?_eq_some h

/-- One lifecycle step never lowers `isEmailVerified`: a post-state record
sharing its id with a pre-state record either keeps the pre-state flag, or
the step is the email-verification consumption and the flag is `true`. -/
theorem applyOp_verified_step (cfg : Config) (db : DB) (op : Op)
    (hnd : (db.map UserRec.id).Nodup) (hfr : opFresh db op)
    {u u' : UserRec} (hu : u ∈ db) (hu' : u' ∈ applyOp cfg db op)
    (hid : u'.id = u.id) :
    u'.isEmailVerified = u.isEmailVerified ∨
      (op.isVerify = true ∧ u'.isEmailVerified = true) := by
  cases op with
  | registerStep reg vtok newId nowMs emailOk =>
    simp only [applyOp] at hu'
    unfold registerUser at hu'
    split at hu'
    · exact Or.inl (congrArg UserRec.isEmailVerified (id_inj hnd hu' hu hid))
    · cases emailOk with
    | false =>
        rcases mem_saveUser hu' with h | ⟨hmem, _⟩
        · exact absurd (by rw [← hid, h] : u.id = newId).symm
            (by have := hfr u hu; exact fun hh => this hh.symm)
        · exact Or.inl (congrArg UserRec.isEmailVerified (id_inj hnd hmem hu hid))
    | true =>
        rcases mem_saveUser hu' with h | ⟨hmem, _⟩
        · exact absurd (by rw [← hid, h] : u.id = newId).symm
            (by have := hfr u hu; exact fun hh => this hh.symm)
        · exact Or.inl (congrArg UserRec.isEmailVerified (id_inj hnd hmem hu hid))
  | verifyStep token nowMs =>
    simp only [applyOp] at hu'
    unfold verifyEmail at hu'
    split at hu'
    · exact Or.inl (congrArg UserRec.isEmailVerified (id_inj hnd hu' hu hid))
    · rename_i u0 heq
      unfold findByVerificationToken at heq
      have hu0 : u0 ∈ db := mem_of_find_eq_some heq
      rcases saveUser_flag_frame hnd hu0 hu hu' hid rfl with h | ⟨h0, hv'⟩
      · exact Or.inl (congrArg UserRec.isEmailVerified h)
      · subst hv'
        exact Or.inr ⟨rfl, rfl⟩
  | resendStep email vtok nowMs emailOk =>
    simp only [applyOp] at hu'
    unfold resendVerificationEmail at hu'
    split at hu'
    · exact Or.inl (congrArg UserRec.isEmailVerified (id_inj hnd hu' hu hid))
    · rename_i u0 heq
      unfold findByEmail at heq
      have hu0 : u0 ∈ db := mem_of_find_eq_some heq
      split at hu'
      · exact Or.inl (congrArg UserRec.isEmailVerified (id_inj hnd hu' hu hid))
      · cases emailOk with
        | false =>
          rcases saveUser_flag_frame hnd hu0 hu hu' hid rfl with h | ⟨h0, hv'⟩
          · exact Or.inl (congrArg UserRec.isEmailVerified h)
          · subst h0; subst hv'; exact Or.inl rfl
        | true =>
          rcases saveUser_flag_frame hnd hu0 hu hu' hid rfl with h | ⟨h0, hv'⟩
          · exact Or.inl (congrArg UserRec.isEmailVerified h)
          · subst h0; subst hv'; exact Or.inl rfl
  | loginStep l nowMs =>
    simp only [applyOp] at hu'
    unfold loginUser at hu'
    split at hu'
    · exact Or.inl (congrArg UserRec.isEmailVerified (id_inj hnd hu' hu hid))
    · rename_i u0 heq
      unfold findByEmail at heq
      have hu0 : u0 ∈ db := mem_of_find_eq_some heq
      split at hu'
      · rcases saveUser_flag_frame hnd hu0 hu hu' hid rfl with h | ⟨h0, hv'⟩
        · exact Or.inl (congrArg UserRec.isEmailVerified h)
        · subst h0; subst hv'; exact Or.inl rfl
      · exact Or.inl (congrArg UserRec.isEmailVerified (id_inj hnd hu' hu hid))
  | refreshStep t nowMs =>
    simp only [applyOp] at hu'
    unfold refreshToken at hu'
    split at hu'
    · exact Or.inl (congrArg UserRec.isEmailVerified (id_inj hnd hu' hu hid))
    · split at hu'
      · exact Or.inl (congrArg UserRec.isEmailVerified (id_inj hnd hu' hu hid))
      · rename_i decoded u0 heq
        unfold findById at heq
        have hu0 : u0 ∈ db := mem_of_find_eq_some heq
        split at hu'
        · rcases saveUser_flag_frame hnd hu0 hu hu' hid rfl with h | ⟨h0, hv'⟩
          · exact Or.inl (congrArg UserRec.isEmailVerified h)
          · subst h0; subst hv'; exact Or.inl rfl
        · exact Or.inl (congrArg UserRec.isEmailVerified (id_inj hnd hu' hu hid))
  | logoutStep userId t =>
    simp only [applyOp] at hu'
    unfold logout at hu'
    split at hu'
    · exact Or.inl (congrArg UserRec.isEmailVerified (id_inj hnd hu' hu hid))
    · rename_i u0 heq
      unfold findById at heq
      have hu0 : u0 ∈ db := mem_of_find_eq_some heq
      rcases saveUser_flag_frame hnd hu0 hu hu' hid rfl with h | ⟨h0, hv'⟩
      · exact Or.inl (congrArg UserRec.isEmailVerified h)
      · subst h0; subst hv'; exact Or.inl rfl
  | logoutAll userId =>
    simp only [applyOp] at hu'
    unfold logoutAllDevices at hu'
    split at hu'
    · exact Or.inl (congrArg UserRec.isEmailVerified (id_inj hnd hu' hu hid))
    · rename_i u0 heq
      unfold findById at heq
      have hu0 : u0 ∈ db := mem_of_find_eq_some heq
      rcases saveUser_flag_frame hnd hu0 hu hu' hid rfl with h | ⟨h0, hv'⟩
      · exact Or.inl (congrArg UserRec.isEmailVerified h)
      · subst h0; subst hv'; exact Or.inl rfl
  | requestResetStep email rtok nowMs emailOk =>
    simp only [applyOp] at hu'
    unfold requestPasswordReset at hu'
    split at hu'
    · exact Or.inl (congrArg UserRec.isEmailVerified (id_inj hnd hu' hu hid))
    · rename_i u0 heq
      unfold findByEmail at heq
      have hu0 : u0 ∈ db := mem_of_find_eq_some heq
      cases emailOk with
      | false =>
        rcases saveUser_flag_frame hnd hu0 hu hu' hid rfl with h | ⟨h0, hv'⟩
        · exact Or.inl (congrArg UserRec.isEmailVerified h)
        · subst h0; subst hv'; exact Or.inl rfl
      | true =>
        rcases saveUser_flag_frame hnd hu0 hu hu' hid rfl with h | ⟨h0, hv'⟩
        · exact Or.inl (congrArg UserRec.isEmailVerified h)
        · subst h0; subst hv'; exact Or.inl rfl
  | resetStep token newPassword nowMs =>
    simp only [applyOp] at hu'
    unfold resetPassword at hu'
    split at hu'
    · exact Or.inl (congrArg UserRec.isEmailVerified (id_inj hnd hu' hu hid))
    · rename_i u0 heq
      unfold findByPasswordResetToken at heq
      have hu0 : u0 ∈ db := mem_of_find_eq_some heq
      rcases saveUser_flag_frame hnd hu0 hu hu' hid rfl with h | ⟨h0, hv'⟩
      · exact Or.inl (congrArg UserRec.isEmailVerified h)
      · subst h0; subst hv'; exact Or.inl rfl
  | profileStep userId =>
    exact Or.inl (congrArg UserRec.isEmailVerified (id_inj hnd hu' hu hid))

/-- Saving a record that replaces an id already in the store preserves
duplicate-freeness of the id column. -/
theorem nodup_saveUser_of_mem {db : DB} (hnd : (db.map UserRec.id).Nodup)
    {v u0 : UserRec} (hu0 : u0 ∈ db) (hvid : v.id = u0.id) :
    ((saveUser db v).map UserRec.id).Nodup := by
  rw [saveUser_map_id_of_any (any_id_of_mem hu0 hvid)]
  exact hnd

/-- Saving a record with an id absent from the store preserves
duplicate-freeness of the id column. -/
theorem nodup_saveUser_of_fresh {db : DB} (hnd : (db.map UserRec.id).Nodup)
    {v : UserRec} (hfr : ∀ u ∈ db, u.id ≠ v.id) :
    ((saveUser db v).map UserRec.id).Nodup := by
  have hany : db.any (fun w => w.id == v.id) = false := by
    by_contra hc
    obtain ⟨w, hw, hwid⟩ := List.any_eq_true.mp (eq_true_of_ne_false hc)
    exact hfr w hw (beq_id_eq hwid)
  rw [saveUser_map_id_of_fresh hany, List.nodup_append]
  refine ⟨hnd, List.nodup_singleton _, ?_⟩
  intro a ha hb
  obtain ⟨w, hw, hwid⟩ := List.mem_map.mp ha
  rw [List.mem_singleton] at hb
  exact hfr w hw (by rw [hwid, hb])

/-- Every lifecycle step keeps the id column duplicate-free. -/
theorem applyOp_ids_nodup (cfg : Config) (db : DB) (op : Op)
    (hnd : (db.map UserRec.id).Nodup) (hfr : opFresh db op) :
    ((applyOp cfg db op).map UserRec.id).Nodup := by
  cases op with
  | registerStep reg vtok newId nowMs emailOk =>
    simp only [applyOp]
    unfold registerUser
    split
    · exact hnd
    · cases emailOk with
      | false =>
        apply nodup_saveUser_of_fresh hnd
        intro w hw
        exact hfr w hw
      | true =>
        apply nodup_saveUser_of_fresh hnd
        intro w hw
        exact hfr w hw
  | verifyStep token nowMs =>
    simp only [applyOp]
    unfold verifyEmail
    split
    · exact hnd
    · rename_i u0 heq
      unfold findByVerificationToken at heq
      apply nodup_saveUser_of_mem hnd (mem_of_find_eq_some heq)
      rfl
  | resendStep email vtok nowMs emailOk =>
    simp only [applyOp]
    unfold resendVerificationEmail
    split
    · exact hnd
    · rename_i u0 heq
      unfold findByEmail at heq
      split
      · exact hnd
      · cases emailOk with
        | false =>
          apply nodup_saveUser_of_mem hnd (mem_of_find_eq_some heq)
          rfl
        | true =>
          apply nodup_saveUser_of_mem hnd (mem_of_find_eq_some heq)
          rfl
  | loginStep l nowMs =>
    simp only [applyOp]
    unfold loginUser
    split
    · exact hnd
    · rename_i u0 heq
      unfold findByEmail at heq
      split
      · apply nodup_saveUser_of_mem hnd (mem_of_find_eq_some heq)
        rfl
      · exact hnd
  | refreshStep t nowMs =>
    simp only [applyOp]
    unfold refreshToken
    split
    · exact hnd
    · split
      · exact hnd
      · rename_i decoded u0 heq
        unfold findById at heq
        split
        · apply nodup_saveUser_of_mem hnd (mem_of_find_eq_some heq)
          rfl
        · exact hnd
  | logoutStep userId t =>
    simp only [applyOp]
    unfold logout
    split
    · exact hnd
    · rename_i u0 heq
      unfold findById at heq
      apply nodup_saveUser_of_mem hnd (mem_of_find_eq_some heq)
      rfl
  | logoutAll userId =>
    simp only [applyOp]
    unfold logoutAllDevices
    split
    · exact hnd
    · rename_i u0 heq
      unfold findById at heq
      apply nodup_saveUser_of_mem hnd (mem_of_find_eq_some heq)
      rfl
  | requestResetStep email rtok nowMs emailOk =>
    simp only [applyOp]
    unfold requestPasswordReset
    split
    · exact hnd
    · rename_i u0 heq
      unfold findByEmail at heq
      cases emailOk with
      | false =>
        apply nodup_saveUser_of_mem hnd (mem_of_find_eq_some heq)
        rfl
      | true =>
        apply nodup_saveUser_of_mem hnd (mem_of_find_eq_some heq)
        rfl
  | resetStep token newPassword nowMs =>
    simp only [applyOp]
    unfold resetPassword
    split
    · exact hnd
    · rename_i u0 heq
      unfold findByPasswordResetToken at heq
      apply nodup_saveUser_of_mem hnd (mem_of_find_eq_some heq)
      rfl
  | profileStep userId =>
    exact hnd

/-- A lifecycle step never deletes an id: some record with any pre-state id
survives into the post-state. -/
theorem exists_id_applyOp (cfg : Config) (db : DB) (op : Op)
    {u : UserRec} (hu : u ∈ db) :
    ∃ w ∈ applyOp cfg db op, w.id = u.id := by
  cases op with
  | registerStep reg vtok newId nowMs emailOk =>
    simp only [applyOp]
    unfold registerUser
    split
    · exact ⟨u, hu, rfl⟩
    · cases emailOk with
      | false => exact exists_id_saveUser _ hu
      | true => exact exists_id_saveUser _ hu
  | verifyStep token nowMs =>
    simp only [applyOp]
    unfold verifyEmail
    split
    · exact ⟨u, hu, rfl⟩
    · exact exists_id_saveUser _ hu
  | resendStep email vtok nowMs emailOk =>
    simp only [applyOp]
    unfold resendVerificationEmail
    split
    · exact ⟨u, hu, rfl⟩
    · split
      · exact ⟨u, hu, rfl⟩
      · cases emailOk with
        | false => exact exists_id_saveUser _ hu
        | true => exact exists_id_saveUser _ hu
  | loginStep l nowMs =>
    simp only [applyOp]
    unfold loginUser
    split
    · exact ⟨u, hu, rfl⟩
    · split
      · exact exists_id_saveUser _ hu
      · exact ⟨u, hu, rfl⟩
  | refreshStep t nowMs =>
    simp only [applyOp]
    unfold refreshToken
    split
    · exact ⟨u, hu, rfl⟩
    · split
      · exact ⟨u, hu, rfl⟩
      · split
        · exact exists_id_saveUser _ hu
        · exact ⟨u, hu, rfl⟩
  | logoutStep userId t =>
    simp only [applyOp]
    unfold logout
    split
    · exact ⟨u, hu, rfl⟩
    · exact exists_id_saveUser _ hu
  | logoutAll userId =>
    simp only [applyOp]
    unfold logoutAllDevices
    split
    · exact ⟨u, hu, rfl⟩
    · exact exists_id_saveUser _ hu
  | requestResetStep email rtok nowMs emailOk =>
    simp only [applyOp]
    unfold requestPasswordReset
    split
    · exact ⟨u, hu, rfl⟩
    · cases emailOk with
      | false => exact exists_id_saveUser _ hu
      | true => exact exists_id_saveUser _ hu
  | resetStep token newPassword nowMs =>
    simp only [applyOp]
    unfold resetPassword
    split
    · exact ⟨u, hu, rfl⟩
    · exact exists_id_saveUser _ hu
  | profileStep userId =>
    exact ⟨u, hu, rfl⟩

/-- Monotonicity of `isEmailVerified` along any trace of lifecycle steps. -/
theorem applyOps_verified_mono (cfg : Config) :
    ∀ (ops : List Op) (db : DB), (db.map UserRec.id).Nodup → FreshTrace cfg db ops →
      ∀ u ∈ db, u.isEmailVerified = true →
      ∀ u' ∈ applyOps cfg db ops, u'.id = u.id → u'.isEmailVerified = true := by
  intro ops
  induction ops with
  | nil =>
    intro db hnd _ u hu hv u' hu' hid
    have : u' = u := id_inj hnd hu' hu hid
    rw [this, hv]
  | cons op rest ih =>
    intro db hnd hft u hu hv u' hu' hid
    obtain ⟨hfr, hft'⟩ := hft
    obtain ⟨w, hw, hwid⟩ := exists_id_applyOp cfg db op hu
    have hwv : w.isEmailVerified = true := by
      rcases applyOp_verified_step cfg db op hnd hfr hu hw hwid with h | ⟨_, h⟩
      · rw [h, hv]
      · exact h
    exact ih (applyOp cfg db op) (applyOp_ids_nodup cfg db op hnd hfr) hft'
      w hw hwv u' hu' (hid.trans hwid.symm)

/-- Claim **C9**: `isEmailVerified` is monotone. (i) Along every well-formed trace
of lifecycle-manager steps (Register, VerifyEmail, ResendVerification,
Login, Refresh, Logout, LogoutAll, RequestPasswordReset, ResetPassword —
plus the read-only GetProfile), once a record's flag is `true` every
same-id record in any later state still has it `true`; (ii) no step other
than VerifyEmail ever changes the flag of an existing record; (iii) the
records Register creates start with the flag `false`. -/
theorem isEmailVerified_monotone :
    (∀ (cfg : Config) (ops : List Op) (db : DB),
      (db.map UserRec.id).Nodup → FreshTrace cfg db ops →
      ∀ u ∈ db, u.isEmailVerified = true →
      ∀ u' ∈ applyOps cfg db ops, u'.id = u.id → u'.isEmailVerified = true) ∧
    (∀ (cfg : Config) (db : DB) (op : Op),
      (db.map UserRec.id).Nodup → opFresh db op → op.isVerify = false →
      ∀ u ∈ db, ∀ u' ∈ applyOp cfg db op, u'.id = u.id →
        u'.isEmailVerified = u.isEmailVerified) ∧
    (∀ (db : DB) (reg : Registration) (vtok newId : String) (nowMs : Nat) (emailOk : Bool),
      ∀ u' ∈ (registerUser db reg vtok newId nowMs emailOk).2.1,
        u' ∈ db ∨ u'.isEmailVerified = false) := by
  refine ⟨fun cfg => applyOps_verified_mono cfg, ?_, ?_⟩
  · intro cfg db op hnd hfr hnv u hu u' hu' hid
    rcases applyOp_verified_step cfg db op hnd hfr hu hu' hid with h | ⟨hv, _⟩
    · exact h
    · rw [hnv] at hv
      exact absurd hv (by simp)
  · intro db reg vtok newId nowMs emailOk u' hu'
    unfold registerUser at hu'
    split at hu'
    · exact Or.inl hu'
    · cases emailOk with
      | false =>
        rcases mem_saveUser hu' with h | ⟨hmem, _⟩
        · subst h; exact Or.inr rfl
        · exact Or.inl hmem
      | true =>
        rcases mem_saveUser hu' with h | ⟨hmem, _⟩
        · subst h; exact Or.inr rfl
        · exact Or.inl hmem

/-- The fixture user after a LogoutAll step. -/
def wUserCleared : UserRec := wUser.clearRefreshTokens

/-- Witness for C9: the verified fixture user stays verified across a
concrete LogoutAll step. -/
theorem isEmailVerified_monotone_witness : wUserCleared.isEmailVerified = true :=
  isEmailVerified_monotone.1 defaultConfig [Op.logoutAll "u1"] [wUser]
    (List.nodup_singleton _) ⟨trivial, trivial⟩ wUser (List.mem_singleton.mpr rfl) rfl
    wUserCleared
    (by rw [show applyOps defaultConfig [wUser] [Op.logoutAll "u1"] = [wUserCleared] from rfl]
        exact List.mem_singleton.mpr rfl)
    rfl
